import Mathlib

set_option maxRecDepth 10000

namespace MergerV3

/-- A cell of a loaded table.  The dtypes that take part in the verified
properties of `src/app.py` are strings, integers and nulls; the join key is
cast to string before any comparison and no verified property depends on
float or boolean cells, so those dtypes are not modelled. -/
inductive Value where
  | vNull : Value
  | vStr : String → Value
  | vInt : Int → Value
deriving DecidableEq, Repr

open Value

/-- A polars DataFrame as used by `app.py`: ordered column names plus rows,
each row holding one cell per column, positionally aligned. -/
structure Table where
  cols : List String
  rows : List (List Value)
deriving DecidableEq, Repr

/-- Every row has exactly one cell per column name. -/
def Table.WellFormed (t : Table) : Prop :=
  ∀ r ∈ t.rows, r.length = t.cols.length

instance (t : Table) : Decidable t.WellFormed :=
  List.decidableBAll _ t.rows

/-- Index of the join key column `UPC` (equals `cols.length` when absent). -/
def keyIdx (t : Table) : Nat := t.cols.indexOf "UPC"

/-- Cell of a row at a column index; out-of-range reads are null. -/
def cell (r : List Value) (i : Nat) : Value := r.getD i vNull

/-- The key column of a table as a list, one entry per row
(the `UPC` column of the DataFrame). -/
def keyList (t : Table) : List Value := t.rows.map (fun r => cell r (keyIdx t))

/-- The key coercion `pl.col("UPC").cast(pl.Utf8).fill_null("MISSING_UPC")` applied to one
cell: integers print in decimal, strings stay, nulls become the sentinel
(`app.py` lines 330-335). -/
def coerceVal : Value → Value
  | vNull => vStr "MISSING_UPC"
  | vStr s => vStr s
  | vInt n => vStr (toString n)

/-- Apply the key coercion at column index `i` of one row. -/
def coerceRow (i : Nat) (r : List Value) : List Value :=
  r.set i (coerceVal (cell r i))

/-- The table-level key coercion `df.with_columns(pl.col("UPC").cast(pl.Utf8).fill_null("MISSING_UPC"))`. -/
def coerceKey (t : Table) : Table :=
  ⟨t.cols, t.rows.map (coerceRow (keyIdx t))⟩

/-- Column names contributed by the right table of the join: the key column
is dropped and a name clashing with a left column receives the polars
`_right` suffix. -/
def rightCols (left right : Table) : List String :=
  (right.cols.filter (fun c => c != "UPC")).map
    (fun c => if left.cols.contains c then c ++ "_right" else c)

/-- The join `left.join(right, on="UPC", how="inner")` (`app.py` line 341): every
pairing of a left row and a right row with equal key cells yields one output
row, the left row followed by the right row without its key cell.  Polars
guarantees the multiset of output rows, not their order; the nested-loop
order fixed here is used only for order-insensitive properties. -/
def innerJoin (left right : Table) : Table :=
  ⟨left.cols ++ rightCols left right,
   left.rows.flatMap (fun a =>
     (right.rows.filter (fun b =>
        cell b (keyIdx right) == cell a (keyIdx left))).map
       (fun b => a ++ b.eraseIdx (keyIdx right)))⟩

/-- The triple returned by `perform_simple_merge`. -/
structure MergeResult where
  merged : Table
  unmatchedA : Table
  unmatchedB : Table
deriving DecidableEq, Repr

/-- The merge `perform_simple_merge(pos_df, supplier_df)` from `src/app.py` lines
303-360.  A raised `ValueError` is modelled as `Except.error` carrying the
message re-raised by the outer handler (`Merge failed: ...`).  The unmatched
tables are computed from the key-coerced inputs, filtered by membership of
the key cell in the merged key column (a Python set in the source; list
membership here). -/
def perform_simple_merge (pos_df supplier_df : Table) : Except String MergeResult :=
  if pos_df.rows.isEmpty then .error "Merge failed: POS DataFrame is empty"
  else if supplier_df.rows.isEmpty then .error "Merge failed: Supplier DataFrame is empty"
  else if !(pos_df.cols.contains "UPC") then .error "Merge failed: UPC column not found in POS data"
  else if !(supplier_df.cols.contains "UPC") then .error "Merge failed: UPC column not found in Supplier data"
  else
    let posC := coerceKey pos_df
    let supC := coerceKey supplier_df
    let merged := innerJoin posC supC
    if merged.rows.isEmpty then
      .ok ⟨merged, posC, supC⟩
    else
      .ok ⟨merged,
        ⟨posC.cols, posC.rows.filter (fun r =>
           !((keyList merged).contains (cell r (keyIdx posC))))⟩,
        ⟨supC.cols, supC.rows.filter (fun r =>
           !((keyList merged).contains (cell r (keyIdx supC))))⟩⟩

/-- When the merged table is empty, filtering by its (empty) key set keeps
every row, so both `.ok` branches of the merge produce the same shape. -/
lemma filter_not_contains_nil (l : List (List Value)) (i : Nat) :
    l.filter (fun r => !(([] : List Value).contains (cell r i))) = l := by
  simp

/-- Normal form of a successful merge: the validations passed and the result
is the join of the coerced inputs together with the two filtered coerced
inputs. -/
lemma pm_ok_shape (A B : Table) (r : MergeResult)
    (h : perform_simple_merge A B = .ok r) :
    A.rows ≠ [] ∧ B.rows ≠ [] ∧ "UPC" ∈ A.cols ∧ "UPC" ∈ B.cols ∧
    r = ⟨innerJoin (coerceKey A) (coerceKey B),
         ⟨A.cols, (coerceKey A).rows.filter (fun x =>
            !((keyList (innerJoin (coerceKey A) (coerceKey B))).contains
               (cell x (keyIdx A))))⟩,
         ⟨B.cols, (coerceKey B).rows.filter (fun x =>
            !((keyList (innerJoin (coerceKey A) (coerceKey B))).contains
               (cell x (keyIdx B))))⟩⟩ := by
  unfold perform_simple_merge at h
  split at h
  · exact absurd h (by simp)
  · split at h
    · exact absurd h (by simp)
    · split at h
      · exact absurd h (by simp)
      · split at h
        · exact absurd h (by simp)
        · rename_i h1 h2 h3 h4
          have hA : A.rows ≠ [] := by
            simpa [List.isEmpty_iff] using h1
          have hB : B.rows ≠ [] := by
            simpa [List.isEmpty_iff] using h2
          have hAc : "UPC" ∈ A.cols := by
            simpa using h3
          have hBc : "UPC" ∈ B.cols := by
            simpa using h4
          refine ⟨hA, hB, hAc, hBc, ?_⟩
          simp only [] at h
          split at h
          · rename_i hm
            have hm' : (innerJoin (coerceKey A) (coerceKey B)).rows = [] := by
              simpa [List.isEmpty_iff] using hm
            cases h
            have hkey : keyList (innerJoin (coerceKey A) (coerceKey B)) = [] := by
              simp [keyList, hm']
            simp only [hkey, filter_not_contains_nil]
            rfl
          · cases h
            rfl

/-- A successful merge exists as soon as the four validations pass. -/
lemma pm_ok_of_valid (A B : Table) (hA : A.rows ≠ []) (hB : B.rows ≠ [])
    (hAc : "UPC" ∈ A.cols) (hBc : "UPC" ∈ B.cols) :
    ∃ r, perform_simple_merge A B = .ok r := by
  have c1 : ¬(A.rows.isEmpty = true) := by simp [List.isEmpty_iff, hA]
  have c2 : ¬(B.rows.isEmpty = true) := by simp [List.isEmpty_iff, hB]
  have c3 : ¬((!(A.cols.contains "UPC")) = true) := by simpa using hAc
  have c4 : ¬((!(B.cols.contains "UPC")) = true) := by simpa using hBc
  unfold perform_simple_merge
  rw [if_neg c1, if_neg c2, if_neg c3, if_neg c4]
  dsimp only
  split
  · exact ⟨_, rfl⟩
  · exact ⟨_, rfl⟩

/-- Claim C7: `perform_simple_merge` fails exactly when one of the four
preconditions is violated (POS empty, Supplier empty, `UPC` missing from
POS, `UPC` missing from Supplier, checked in that order), and each error
message names the offending table; with both tables non-empty and both
holding the key column the merge returns a result, never a validation
error. -/
theorem merge_validation (A B : Table) :
    ((∃ r, perform_simple_merge A B = .ok r) ↔
      (A.rows ≠ [] ∧ B.rows ≠ [] ∧ "UPC" ∈ A.cols ∧ "UPC" ∈ B.cols))
    ∧ (∀ e, perform_simple_merge A B = .error e →
        (A.rows = [] ∧ e = "Merge failed: POS DataFrame is empty") ∨
        (A.rows ≠ [] ∧ B.rows = [] ∧
          e = "Merge failed: Supplier DataFrame is empty") ∨
        (A.rows ≠ [] ∧ B.rows ≠ [] ∧ "UPC" ∉ A.cols ∧
          e = "Merge failed: UPC column not found in POS data") ∨
        (A.rows ≠ [] ∧ B.rows ≠ [] ∧ "UPC" ∈ A.cols ∧ "UPC" ∉ B.cols ∧
          e = "Merge failed: UPC column not found in Supplier data")) := by
  constructor
  · constructor
    · rintro ⟨r, hr⟩
      obtain ⟨h1, h2, h3, h4, -⟩ := pm_ok_shape A B r hr
      exact ⟨h1, h2, h3, h4⟩
    · rintro ⟨h1, h2, h3, h4⟩
      exact pm_ok_of_valid A B h1 h2 h3 h4
  · intro e he
    unfold perform_simple_merge at he
    split at he
    · rename_i h1
      simp only [Except.error.injEq] at he
      exact Or.inl ⟨by simpa [List.isEmpty_iff] using h1, he.symm⟩
    · split at he
      · rename_i h1 h2
        simp only [Except.error.injEq] at he
        exact Or.inr (Or.inl ⟨by simpa [List.isEmpty_iff] using h1,
          by simpa [List.isEmpty_iff] using h2, he.symm⟩)
      · split at he
        · rename_i h1 h2 h3
          simp only [Except.error.injEq] at he
          exact Or.inr (Or.inr (Or.inl ⟨by simpa [List.isEmpty_iff] using h1,
            by simpa [List.isEmpty_iff] using h2, by simpa using h3, he.symm⟩))
        · split at he
          · rename_i h1 h2 h3 h4
            simp only [Except.error.injEq] at he
            exact Or.inr (Or.inr (Or.inr ⟨by simpa [List.isEmpty_iff] using h1,
              by simpa [List.isEmpty_iff] using h2, by simpa using h3,
              by simpa using h4, he.symm⟩))
          · simp only [] at he
            split at he
            · exact absurd he (by simp)
            · exact absurd he (by simp)

/-- Non-empty tables with the key column on which `merge_validation` is
instantiated below. -/
def w7A : Table := ⟨["UPC"], [[Value.vStr "1"]]⟩

def w7B : Table := ⟨["UPC"], [[Value.vStr "2"]]⟩

/-- Witness for claim C7 at concrete non-empty tables that both hold the
key column: the merge returns a result. -/
theorem merge_validation_witness :
    ∃ r, perform_simple_merge w7A w7B = .ok r :=
  (merge_validation w7A w7B).1.mpr (by decide)

/-- Writing back the cell a row already holds leaves the row unchanged. -/
lemma set_cell_self (r : List Value) (i : Nat) : r.set i (cell r i) = r := by
  induction r generalizing i with
  | nil => rfl
  | cons a t ih =>
    cases i with
    | zero => rfl
    | succ n =>
      show a :: t.set n (cell t n) = a :: t
      rw [ih]

/-- Key coercion is the identity on a table whose key column is already
string-typed with no nulls. -/
lemma coerceKey_eq_self (T : Table)
    (h : ∀ r ∈ T.rows, ∃ s, cell r (keyIdx T) = vStr s) :
    coerceKey T = T := by
  have hrow : ∀ r ∈ T.rows, coerceRow (keyIdx T) r = r := by
    intro r hr
    obtain ⟨s, hs⟩ := h r hr
    unfold coerceRow
    rw [hs]
    show r.set (keyIdx T) (vStr s) = r
    rw [← hs, set_cell_self]
  show Table.mk T.cols (T.rows.map (coerceRow (keyIdx T))) = T
  have hid : T.rows.map (fun a => a) = T.rows := by simp
  rw [List.map_congr_left hrow, hid]

/-- Disjoint coerced key columns make the inner join empty. -/
lemma innerJoin_rows_nil_of_disjoint (A B : Table)
    (hdisj : ∀ v ∈ keyList (coerceKey A), v ∉ keyList (coerceKey B)) :
    (innerJoin (coerceKey A) (coerceKey B)).rows = [] := by
  show (coerceKey A).rows.flatMap _ = []
  rw [List.flatMap_eq_nil_iff]
  intro a ha
  rw [List.map_eq_nil_iff, List.filter_eq_nil_iff]
  intro b hb hbeq
  have heq : cell b (keyIdx (coerceKey B)) = cell a (keyIdx (coerceKey A)) := by
    simpa using hbeq
  have hmemA : cell a (keyIdx (coerceKey A)) ∈ keyList (coerceKey A) :=
    List.mem_map_of_mem _ ha
  have hmemB : cell b (keyIdx (coerceKey B)) ∈ keyList (coerceKey B) :=
    List.mem_map_of_mem _ hb
  exact hdisj _ hmemA (heq ▸ hmemB)

/-- Left input of the C1 counterexample: one row, integer key `1`. -/
def c1A : Table := ⟨["UPC"], [[Value.vInt 1]]⟩

/-- Right input of the C1 counterexample: one row, string key `x`. -/
def c1B : Table := ⟨["UPC"], [[Value.vStr "x"]]⟩

/-- The result the merge actually returns on the C1 counterexample. -/
def c1Res : MergeResult :=
  ⟨⟨["UPC"], []⟩, ⟨["UPC"], [[Value.vStr "1"]]⟩, ⟨["UPC"], [[Value.vStr "x"]]⟩⟩

/-- Claim C1 counterexample: two non-empty one-row tables holding the key
column, with disjoint coerced key sets.  The merge succeeds with zero merged
rows, but `unmatchedA` is the key-coerced copy of A (integer key printed as
the string `1`), not A itself, so the claimed equality `unmatchedA = A`
fails. -/
theorem merge_disjoint_counterexample :
    (∀ v ∈ keyList (coerceKey c1A), v ∉ keyList (coerceKey c1B))
    ∧ perform_simple_merge c1A c1B = .ok c1Res
    ∧ c1Res.merged.rows = []
    ∧ c1Res.unmatchedA ≠ c1A := by
  refine ⟨by decide, ?_, by decide, by decide⟩
  rfl

/-- Claim C1 as amended: on non-empty inputs holding the key column whose
coerced key sets are disjoint, the merge returns an empty merged table
together with the key-coerced copies of both inputs; when the key columns
are already string-typed with no nulls those copies coincide with the
original inputs. -/
theorem merge_disjoint_amended (A B : Table)
    (hA : A.rows ≠ []) (hB : B.rows ≠ [])
    (hAc : "UPC" ∈ A.cols) (hBc : "UPC" ∈ B.cols)
    (hdisj : ∀ v ∈ keyList (coerceKey A), v ∉ keyList (coerceKey B)) :
    perform_simple_merge A B =
      .ok ⟨⟨A.cols ++ rightCols A B, []⟩, coerceKey A, coerceKey B⟩
    ∧ ((∀ r ∈ A.rows, ∃ s, cell r (keyIdx A) = vStr s) → coerceKey A = A)
    ∧ ((∀ r ∈ B.rows, ∃ s, cell r (keyIdx B) = vStr s) → coerceKey B = B) := by
  have hrows := innerJoin_rows_nil_of_disjoint A B hdisj
  refine ⟨?_, coerceKey_eq_self A, coerceKey_eq_self B⟩
  have hj : innerJoin (coerceKey A) (coerceKey B) =
      ⟨A.cols ++ rightCols A B, []⟩ := by
    rw [← hrows]
    rfl
  obtain ⟨r, hr⟩ := pm_ok_of_valid A B hA hB hAc hBc
  obtain ⟨-, -, -, -, hshape⟩ := pm_ok_shape A B r hr
  have hkey : keyList (innerJoin (coerceKey A) (coerceKey B)) = [] := by
    simp [keyList, hrows]
  rw [hr, hshape, hkey, filter_not_contains_nil, filter_not_contains_nil, hj]
  rfl

/-- String-keyed disjoint tables instantiating the amended claim C1. -/
def w1A : Table := ⟨["UPC"], [[Value.vStr "1"]]⟩

/-- Second table for the amended claim C1 witness. -/
def w1B : Table := ⟨["UPC"], [[Value.vStr "2"]]⟩

/-- Witness for the amended claim C1: at concrete disjoint string-keyed
tables the merge yields zero merged rows and returns both inputs unchanged
as the unmatched tables. -/
theorem merge_disjoint_amended_witness :
    perform_simple_merge w1A w1B = .ok ⟨⟨["UPC"], []⟩, w1A, w1B⟩ := by
  have h := merge_disjoint_amended w1A w1B (by decide) (by decide) (by decide)
    (by decide) (by decide)
  have h2 := h.2.1 (by
    intro r hr
    have : r = [Value.vStr "1"] := by simpa [w1A] using hr
    exact ⟨"1", by rw [this]; rfl⟩)
  have h3 := h.2.2 (by
    intro r hr
    have : r = [Value.vStr "2"] := by simpa [w1B] using hr
    exact ⟨"2", by rw [this]; rfl⟩)
  rw [h.1, h2, h3]
  rfl

/-- Key column of a join, as a pure list computation: each left row `a`
contributes one copy of its key per right row with a matching key. -/
lemma keyList_join_core (ki kj : Nat) (la lb : List (List Value))
    (hlen : ∀ a ∈ la, ki < a.length) :
    ((la.flatMap (fun a => (lb.filter (fun b => cell b kj == cell a ki)).map
        (fun b => a ++ b.eraseIdx kj))).map (fun r => cell r ki))
      = (la.map (fun a => cell a ki)).flatMap
          (fun k => List.replicate ((lb.map (fun b => cell b kj)).count k) k) := by
  induction la with
  | nil => rfl
  | cons a t ih =>
    simp only [List.flatMap_cons, List.map_cons, List.map_append]
    rw [ih (fun x hx => hlen x (List.mem_cons_of_mem a hx))]
    congr 1
    rw [List.map_map]
    simp only [Function.comp_def]
    have hcell : ∀ (b : List Value), cell (a ++ b.eraseIdx kj) ki = cell a ki := by
      intro b
      show (a ++ b.eraseIdx kj).getD ki vNull = a.getD ki vNull
      exact List.getD_append _ _ _ _ (hlen a (List.mem_cons_self a t))
    have hconst : ((lb.filter (fun b => cell b kj == cell a ki)).map
        (fun (b : List Value) => cell (a ++ b.eraseIdx kj) ki))
        = (lb.filter (fun b => cell b kj == cell a ki)).map (fun _ => cell a ki) :=
      List.map_congr_left (fun b _ => hcell b)
    rw [hconst, List.map_const']
    congr 1
    rw [← List.countP_eq_length_filter]
    simp only [List.count, List.countP_map]
    rfl

/-- Counting inside a flatMap of replicates multiplies the two counts. -/
lemma count_flatMap_replicate (l : List Value) (g : Value → Nat) (v : Value) :
    (l.flatMap (fun k => List.replicate (g k) k)).count v = l.count v * g v := by
  induction l with
  | nil => simp
  | cons a t ih =>
    rw [List.flatMap_cons, List.count_append, ih, List.count_replicate,
      List.count_cons]
    by_cases hv : a = v
    · subst hv
      simp [Nat.add_mul]
      exact Nat.add_comm _ _
    · simp [hv]

/-- Length of a flatMap of replicates is the sum of the replication counts. -/
lemma length_flatMap_replicate (l : List Value) (g : Value → Nat) :
    (l.flatMap (fun k => List.replicate (g k) k)).length = (l.map g).sum := by
  induction l with
  | nil => rfl
  | cons a t ih => simp [ih]

/-- Summing right-side counts over the left key list groups into a sum of
count products over the shared key values. -/
lemma sum_counts_inter (la lb : List Value) :
    (la.map (fun k => lb.count k)).sum
      = ∑ v ∈ la.toFinset ∩ lb.toFinset, la.count v * lb.count v := by
  rw [Finset.sum_list_map_count]
  simp only [smul_eq_mul]
  rw [← Finset.sum_subset Finset.inter_subset_left]
  intro x hx hnx
  have hxlb : x ∉ lb := by
    intro hmem
    exact hnx (Finset.mem_inter.mpr ⟨hx, List.mem_toFinset.mpr hmem⟩)
  rw [List.count_eq_zero.mpr hxlb, Nat.mul_zero]

/-- The key column of the joined table, via `keyList_join_core`. -/
lemma keyList_innerJoin (L R : Table) (hU : "UPC" ∈ L.cols)
    (hlen : ∀ a ∈ L.rows, keyIdx L < a.length) :
    keyList (innerJoin L R) = (keyList L).flatMap
      (fun k => List.replicate ((keyList R).count k) k) := by
  have hki : keyIdx (innerJoin L R) = keyIdx L := by
    show List.indexOf "UPC" (L.cols ++ rightCols L R) = List.indexOf "UPC" L.cols
    exact List.indexOf_append_of_mem hU
  unfold keyList
  simp only [hki]
  exact keyList_join_core (keyIdx L) (keyIdx R) L.rows R.rows hlen

/-- Claim C2: the merged table has standard inner-join multiplicity.  Each
key value `v` occurs in the merged key column exactly (count of `v` in the
coerced POS keys) x (count of `v` in the coerced Supplier keys) times, and
the merged row count is the sum of these products over the shared key
values. -/
theorem merge_multiplicity (A B : Table)
    (hA : A.WellFormed) (hB : B.WellFormed)
    (r : MergeResult) (h : perform_simple_merge A B = .ok r) :
    (∀ v, (keyList r.merged).count v =
        (keyList (coerceKey A)).count v * (keyList (coerceKey B)).count v)
    ∧ r.merged.rows.length =
        ∑ v ∈ (keyList (coerceKey A)).toFinset ∩ (keyList (coerceKey B)).toFinset,
          (keyList (coerceKey A)).count v * (keyList (coerceKey B)).count v := by
  obtain ⟨hA1, hB1, hAc, hBc, hshape⟩ := pm_ok_shape A B r h
  have hwfA : ∀ a ∈ (coerceKey A).rows, keyIdx (coerceKey A) < a.length := by
    intro a ha
    obtain ⟨a0, ha0, rfl⟩ := List.mem_map.mp ha
    show keyIdx A < (coerceRow (keyIdx A) a0).length
    rw [coerceRow, List.length_set, hA a0 ha0]
    exact List.indexOf_lt_length.mpr hAc
  have hmerged : r.merged = innerJoin (coerceKey A) (coerceKey B) := by
    rw [hshape]
  have hkl : keyList r.merged =
      (keyList (coerceKey A)).flatMap
        (fun k => List.replicate ((keyList (coerceKey B)).count k) k) := by
    rw [hmerged]
    exact keyList_innerJoin (coerceKey A) (coerceKey B) hAc hwfA
  constructor
  · intro v
    rw [hkl, count_flatMap_replicate]
  · have hlm : r.merged.rows.length = (keyList r.merged).length :=
      (List.length_map _ _).symm
    rw [hlm, hkl, length_flatMap_replicate, sum_counts_inter]

/-- POS table with the key value `1` twice, for the C2 witness. -/
def w2A : Table := ⟨["UPC"], [[Value.vStr "1"], [Value.vStr "1"]]⟩

/-- Supplier table with the key value `1` three times, for the C2 witness. -/
def w2B : Table :=
  ⟨["UPC"], [[Value.vStr "1"], [Value.vStr "1"], [Value.vStr "1"]]⟩

/-- The merge result on the C2 witness tables: six merged rows. -/
def w2R : MergeResult :=
  ⟨⟨["UPC"], [[Value.vStr "1"], [Value.vStr "1"], [Value.vStr "1"],
              [Value.vStr "1"], [Value.vStr "1"], [Value.vStr "1"]]⟩,
   ⟨["UPC"], []⟩, ⟨["UPC"], []⟩⟩

/-- Witness for claim C2: a key duplicated twice in POS and three times in
Supplier yields exactly six merged rows carrying that key. -/
theorem merge_multiplicity_witness :
    (keyList w2R.merged).count (Value.vStr "1") =
      (keyList (coerceKey w2A)).count (Value.vStr "1") *
        (keyList (coerceKey w2B)).count (Value.vStr "1") :=
  (merge_multiplicity w2A w2B (by decide) (by decide) w2R (by rfl)).1
    (Value.vStr "1")

/-- The coercion always yields a string cell. -/
lemma coerceVal_isStr (v : Value) : ∃ s, coerceVal v = vStr s := by
  cases v with
  | vNull => exact ⟨"MISSING_UPC", rfl⟩
  | vStr s => exact ⟨s, rfl⟩
  | vInt n => exact ⟨toString n, rfl⟩

/-- Reading back an in-range overwrite returns the written value. -/
lemma cell_set (r : List Value) (i : Nat) (v : Value) (h : i < r.length) :
    cell (r.set i v) i = v := by
  induction r generalizing i with
  | nil => simp at h
  | cons a t ih =>
    cases i with
    | zero => rfl
    | succ n =>
      show cell (t.set n v) n = v
      exact ih n (Nat.lt_of_succ_lt_succ h)

/-- Key coercion preserves row lengths. -/
lemma coerceKey_len (T : Table) (hT : T.WellFormed) :
    ∀ a ∈ (coerceKey T).rows, a.length = T.cols.length := by
  intro a ha
  obtain ⟨a0, ha0, rfl⟩ := List.mem_map.mp ha
  show (a0.set _ _).length = _
  rw [List.length_set]
  exact hT a0 ha0

/-- Every row of a key-coerced table carries a string key cell. -/
lemma coerced_cell_isStr (T : Table) (hT : T.WellFormed) (hU : "UPC" ∈ T.cols) :
    ∀ row ∈ (coerceKey T).rows, ∃ s, cell row (keyIdx T) = vStr s := by
  intro row hrow
  obtain ⟨r0, hr0, rfl⟩ := List.mem_map.mp hrow
  have hi : keyIdx T < r0.length := by
    rw [hT r0 hr0]
    exact List.indexOf_lt_length.mpr hU
  rw [show coerceRow (keyIdx T) r0 = r0.set (keyIdx T) (coerceVal (cell r0 (keyIdx T))) from rfl,
    cell_set _ _ _ hi]
  exact coerceVal_isStr _

/-- Claim C3: the key comparison happens only after both key columns are
coerced to string with the `MISSING_UPC` sentinel substituted for nulls, so
a left row and a right row that both carry a null key form a matching pair
in the merged output (their combined row appears among the merged rows, and
its key cell is the sentinel string). -/
theorem null_keys_match (A B : Table) (hA : A.WellFormed) (hB : B.WellFormed)
    (a : List Value) (ha : a ∈ A.rows) (hak : cell a (keyIdx A) = vNull)
    (b : List Value) (hb : b ∈ B.rows) (hbk : cell b (keyIdx B) = vNull)
    (r : MergeResult) (h : perform_simple_merge A B = .ok r) :
    (coerceRow (keyIdx A) a ++ (coerceRow (keyIdx B) b).eraseIdx (keyIdx B))
      ∈ r.merged.rows
    ∧ cell (coerceRow (keyIdx A) a) (keyIdx A) = vStr "MISSING_UPC" := by
  obtain ⟨-, -, hAc, hBc, hshape⟩ := pm_ok_shape A B r h
  have hia : keyIdx A < a.length := by
    rw [hA a ha]
    exact List.indexOf_lt_length.mpr hAc
  have hib : keyIdx B < b.length := by
    rw [hB b hb]
    exact List.indexOf_lt_length.mpr hBc
  have hca : cell (coerceRow (keyIdx A) a) (keyIdx A) = vStr "MISSING_UPC" := by
    rw [show coerceRow (keyIdx A) a
        = a.set (keyIdx A) (coerceVal (cell a (keyIdx A))) from rfl,
      cell_set _ _ _ hia, hak]
    rfl
  have hcb : cell (coerceRow (keyIdx B) b) (keyIdx B) = vStr "MISSING_UPC" := by
    rw [show coerceRow (keyIdx B) b
        = b.set (keyIdx B) (coerceVal (cell b (keyIdx B))) from rfl,
      cell_set _ _ _ hib, hbk]
    rfl
  refine ⟨?_, hca⟩
  rw [hshape]
  show _ ∈ (coerceKey A).rows.flatMap _
  apply List.mem_flatMap.mpr
  refine ⟨coerceRow (keyIdx A) a, List.mem_map_of_mem _ ha, ?_⟩
  apply List.mem_map.mpr
  refine ⟨coerceRow (keyIdx B) b, ?_, rfl⟩
  apply List.mem_filter.mpr
  refine ⟨List.mem_map_of_mem _ hb, ?_⟩
  show (cell (coerceRow (keyIdx B) b) (keyIdx B)
      == cell (coerceRow (keyIdx A) a) (keyIdx A)) = true
  rw [hca, hcb]
  simp

/-- Table with a single null-keyed row, left input of the C3 witness. -/
def w3A : Table := ⟨["UPC"], [[Value.vNull]]⟩

/-- Table with a single null-keyed row, right input of the C3 witness. -/
def w3B : Table := ⟨["UPC"], [[Value.vNull]]⟩

/-- Merge result of the C3 witness tables: the two null-keyed rows match. -/
def w3R : MergeResult :=
  ⟨⟨["UPC"], [[Value.vStr "MISSING_UPC"]]⟩, ⟨["UPC"], []⟩, ⟨["UPC"], []⟩⟩

/-- Witness for claim C3: two single-row tables with null keys merge into
one row keyed by the sentinel string. -/
theorem null_keys_match_witness :
    (coerceRow (keyIdx w3A) [Value.vNull] ++
      (coerceRow (keyIdx w3B) [Value.vNull]).eraseIdx (keyIdx w3B))
      ∈ w3R.merged.rows
    ∧ cell (coerceRow (keyIdx w3A) [Value.vNull]) (keyIdx w3A)
      = Value.vStr "MISSING_UPC" :=
  null_keys_match w3A w3B (by decide) (by decide)
    [Value.vNull] (by decide) (by decide)
    [Value.vNull] (by decide) (by decide) w3R (by rfl)

/-- Claim C10: every successful merge returns three tables whose key cells
are all strings (never null), and the unmatched tables consist of rows of
the key-coerced inputs, not rows of the original inputs. -/
theorem merge_result_key_invariant (A B : Table)
    (hA : A.WellFormed) (hB : B.WellFormed)
    (r : MergeResult) (h : perform_simple_merge A B = .ok r) :
    (∀ row ∈ r.merged.rows, ∃ s, cell row (keyIdx r.merged) = vStr s)
    ∧ (∀ row ∈ r.unmatchedA.rows, ∃ s, cell row (keyIdx r.unmatchedA) = vStr s)
    ∧ (∀ row ∈ r.unmatchedB.rows, ∃ s, cell row (keyIdx r.unmatchedB) = vStr s)
    ∧ (∀ row ∈ r.unmatchedA.rows, row ∈ (coerceKey A).rows)
    ∧ (∀ row ∈ r.unmatchedB.rows, row ∈ (coerceKey B).rows) := by
  obtain ⟨-, -, hAc, hBc, hshape⟩ := pm_ok_shape A B r h
  subst hshape
  dsimp only
  refine ⟨?_, ?_, ?_, ?_, ?_⟩
  · intro row hrow
    have hki : keyIdx (innerJoin (coerceKey A) (coerceKey B)) = keyIdx A :=
      List.indexOf_append_of_mem hAc
    rw [hki]
    obtain ⟨a, ha, hrow2⟩ := List.mem_flatMap.mp hrow
    obtain ⟨b, hb, rfl⟩ := List.mem_map.mp hrow2
    have hia : keyIdx A < a.length := by
      rw [coerceKey_len A hA a ha]
      exact List.indexOf_lt_length.mpr hAc
    rw [show cell (a ++ b.eraseIdx (keyIdx (coerceKey B))) (keyIdx A)
        = cell a (keyIdx A) from List.getD_append _ _ _ _ hia]
    exact coerced_cell_isStr A hA hAc a ha
  · intro row hrow
    exact coerced_cell_isStr A hA hAc row (List.mem_of_mem_filter hrow)
  · intro row hrow
    exact coerced_cell_isStr B hB hBc row (List.mem_of_mem_filter hrow)
  · intro row hrow
    exact List.mem_of_mem_filter hrow
  · intro row hrow
    exact List.mem_of_mem_filter hrow

/-- Left input of the C10 witness: integer key. -/
def w10A : Table := ⟨["UPC"], [[Value.vInt 5]]⟩

/-- Right input of the C10 witness: null key. -/
def w10B : Table := ⟨["UPC"], [[Value.vNull]]⟩

/-- Merge result of the C10 witness inputs. -/
def w10R : MergeResult :=
  ⟨⟨["UPC"], []⟩, ⟨["UPC"], [[Value.vStr "5"]]⟩,
   ⟨["UPC"], [[Value.vStr "MISSING_UPC"]]⟩⟩

/-- Witness for claim C10: on concrete inputs the unmatched POS row is the
coerced row (integer key printed as a string). -/
theorem merge_result_key_invariant_witness :
    [Value.vStr "5"] ∈ (coerceKey w10A).rows :=
  (merge_result_key_invariant w10A w10B (by decide) (by decide) w10R
    (by rfl)).2.2.2.1 [Value.vStr "5"] (by decide)

/-- Raw file content: one entry per byte (each in 0..255). -/
abbrev Bytes := List Nat

/-- A UTF-8 continuation byte. -/
def contByte (b : Nat) : Bool := 0x80 ≤ b && b ≤ 0xBF

/-- Strict UTF-8 decoding of a whole byte list, as performed by Python
`bytes.decode("utf-8")` for the encoding attempts of
`read_file_with_polars` (`app.py` lines 232-247): `none` models a raised
`UnicodeDecodeError`.  The standard lead/continuation ranges are enforced,
surrogates and out-of-range sequences rejected. -/
def utf8DecodeList : Bytes → Option (List Char)
  | [] => some []
  | b :: rest =>
    if b < 0x80 then (utf8DecodeList rest).map (fun cs => Char.ofNat b :: cs)
    else if 0xC2 ≤ b && b ≤ 0xDF then
      match rest with
      | c :: r2 =>
        if contByte c then
          (utf8DecodeList r2).map
            (fun cs => Char.ofNat ((b - 0xC0) * 0x40 + (c - 0x80)) :: cs)
        else none
      | [] => none
    else if b == 0xE0 then
      match rest with
      | c :: d :: r2 =>
        if (0xA0 ≤ c && c ≤ 0xBF) && contByte d then
          (utf8DecodeList r2).map (fun cs =>
            Char.ofNat ((c - 0x80) * 0x40 + (d - 0x80) + 0x1000 * (b - 0xE0)) :: cs)
        else none
      | _ => none
    else if (0xE1 ≤ b && b ≤ 0xEC) || b == 0xEE || b == 0xEF then
      match rest with
      | c :: d :: r2 =>
        if contByte c && contByte d then
          (utf8DecodeList r2).map (fun cs =>
            Char.ofNat ((c - 0x80) * 0x40 + (d - 0x80) + 0x1000 * (b - 0xE0)) :: cs)
        else none
      | _ => none
    else if b == 0xED then
      match rest with
      | c :: d :: r2 =>
        if (0x80 ≤ c && c ≤ 0x9F) && contByte d then
          (utf8DecodeList r2).map (fun cs =>
            Char.ofNat ((c - 0x80) * 0x40 + (d - 0x80) + 0x1000 * (b - 0xE0)) :: cs)
        else none
      | _ => none
    else if b == 0xF0 then
      match rest with
      | c :: d :: e :: r2 =>
        if (0x90 ≤ c && c ≤ 0xBF) && (contByte d && contByte e) then
          (utf8DecodeList r2).map (fun cs =>
            Char.ofNat (((c - 0x80) * 0x40 + (d - 0x80)) * 0x40 + (e - 0x80)
              + 0x40000 * (b - 0xF0)) :: cs)
        else none
      | _ => none
    else if 0xF1 ≤ b && b ≤ 0xF3 then
      match rest with
      | c :: d :: e :: r2 =>
        if contByte c && (contByte d && contByte e) then
          (utf8DecodeList r2).map (fun cs =>
            Char.ofNat (((c - 0x80) * 0x40 + (d - 0x80)) * 0x40 + (e - 0x80)
              + 0x40000 * (b - 0xF0)) :: cs)
        else none
      | _ => none
    else if b == 0xF4 then
      match rest with
      | c :: d :: e :: r2 =>
        if (0x80 ≤ c && c ≤ 0x8F) && (contByte d && contByte e) then
          (utf8DecodeList r2).map (fun cs =>
            Char.ofNat (((c - 0x80) * 0x40 + (d - 0x80)) * 0x40 + (e - 0x80)
              + 0x40000 * (b - 0xF0)) :: cs)
        else none
      | _ => none
    else none

/-- The Unicode replacement character. -/
def replChar : Char := Char.ofNat 0xFFFD

/-- Python `bytes.decode("utf-8", errors="replace")` used by the TXT fallback of
`read_file_with_polars` (`app.py` line 284).  Valid sequences decode as in
`utf8DecodeList`; on an invalid sequence one replacement character is
emitted and one byte consumed (CPython substitutes one replacement per
maximal invalid subpart; the difference does not affect any verified claim,
whose witnesses use pure-ASCII content). -/
def utf8ReplaceList : Bytes → List Char
  | [] => []
  | b :: rest =>
    if b < 0x80 then Char.ofNat b :: utf8ReplaceList rest
    else if 0xC2 ≤ b && b ≤ 0xDF then
      match hr : rest with
      | c :: r2 =>
        if contByte c then
          Char.ofNat ((b - 0xC0) * 0x40 + (c - 0x80)) :: utf8ReplaceList r2
        else replChar :: utf8ReplaceList rest
      | [] => [replChar]
    else if (0xE0 ≤ b && b ≤ 0xEF) then
      match hr : rest with
      | c :: d :: r2 =>
        if contByte c && contByte d then
          Char.ofNat ((c - 0x80) * 0x40 + (d - 0x80) + 0x1000 * (b - 0xE0))
            :: utf8ReplaceList r2
        else replChar :: utf8ReplaceList rest
      | _ => replChar :: utf8ReplaceList rest
    else if (0xF0 ≤ b && b ≤ 0xF4) then
      match hr : rest with
      | c :: d :: e :: r2 =>
        if contByte c && (contByte d && contByte e) then
          Char.ofNat (((c - 0x80) * 0x40 + (d - 0x80)) * 0x40 + (e - 0x80)
            + 0x40000 * (b - 0xF0)) :: utf8ReplaceList r2
        else replChar :: utf8ReplaceList rest
      | _ => replChar :: utf8ReplaceList rest
    else replChar :: utf8ReplaceList rest
termination_by l => l.length
decreasing_by all_goals (subst_vars; simp_arith)

/-- Python `bytes.decode("latin-1")`: total, each byte maps to the code point of
the same value. -/
def latin1DecodeList (l : Bytes) : List Char := l.map Char.ofNat

/-- One byte under the Windows-1252 codec: the five unassigned positions
raise (`none`), the 0x80-0x9F block maps through the cp1252 table, all
other bytes map to the code point of the same value. -/
def cp1252Char (b : Nat) : Option Char :=
  if b == 0x80 then some (Char.ofNat 0x20AC)
  else if b == 0x82 then some (Char.ofNat 0x201A)
  else if b == 0x83 then some (Char.ofNat 0x0192)
  else if b == 0x84 then some (Char.ofNat 0x201E)
  else if b == 0x85 then some (Char.ofNat 0x2026)
  else if b == 0x86 then some (Char.ofNat 0x2020)
  else if b == 0x87 then some (Char.ofNat 0x2021)
  else if b == 0x88 then some (Char.ofNat 0x02C6)
  else if b == 0x89 then some (Char.ofNat 0x2030)
  else if b == 0x8A then some (Char.ofNat 0x0160)
  else if b == 0x8B then some (Char.ofNat 0x2039)
  else if b == 0x8C then some (Char.ofNat 0x0152)
  else if b == 0x8E then some (Char.ofNat 0x017D)
  else if b == 0x91 then some (Char.ofNat 0x2018)
  else if b == 0x92 then some (Char.ofNat 0x2019)
  else if b == 0x93 then some (Char.ofNat 0x201C)
  else if b == 0x94 then some (Char.ofNat 0x201D)
  else if b == 0x95 then some (Char.ofNat 0x2022)
  else if b == 0x96 then some (Char.ofNat 0x2013)
  else if b == 0x97 then some (Char.ofNat 0x2014)
  else if b == 0x98 then some (Char.ofNat 0x02DC)
  else if b == 0x99 then some (Char.ofNat 0x2122)
  else if b == 0x9A then some (Char.ofNat 0x0161)
  else if b == 0x9B then some (Char.ofNat 0x203A)
  else if b == 0x9C then some (Char.ofNat 0x0153)
  else if b == 0x9E then some (Char.ofNat 0x017E)
  else if b == 0x9F then some (Char.ofNat 0x0178)
  else if b == 0x81 || b == 0x8D || b == 0x8F || b == 0x90 || b == 0x9D then none
  else some (Char.ofNat b)

/-- Python `bytes.decode("cp1252")`: fails iff some byte is unassigned. -/
def cp1252DecodeList (l : Bytes) : Option (List Char) := l.mapM cp1252Char

/-- Split a character list on a separator character; always returns at
least one (possibly empty) field. -/
def splitListOn (sep : Char) : List Char → List (List Char)
  | [] => [[]]
  | c :: t =>
    let r := splitListOn sep t
    if c == sep then [] :: r
    else
      match r with
      | h :: t2 => (c :: h) :: t2
      | [] => [[c]]

/-- Delimited parsing of decoded text as performed by `pl.read_csv` (and,
in the TXT fallback, `pd.read_csv`): first non-empty line is the header,
remaining non-empty lines are rows, fields split on the separator and rows
padded/truncated to the header width.  Empty input raises polars
`NoDataError` (pandas `EmptyDataError`), modelled as `.error`.  Quoting,
dtype inference and the exact ragged-row policy of the lenient
`ignore_errors=True` mode are abstracted: every verified claim depends only
on the column count, the row count and string cell payloads of well-formed
inputs. -/
def parseCsv (sep : Char) (content : List Char) : Except String Table :=
  let lines := (splitListOn (Char.ofNat 10) content).filter (fun l => !l.isEmpty)
  match lines with
  | [] => .error "NoDataError: empty CSV"
  | header :: dataLines =>
    let cols := (splitListOn sep header).map (fun f => String.mk f)
    let n := cols.length
    .ok ⟨cols, dataLines.map (fun ln =>
      let fields := (splitListOn sep ln).map (fun f => Value.vStr (String.mk f))
      fields.take n ++ List.replicate (n - fields.length) Value.vNull)⟩

/-- Python text decoding by codec name, as triggered by
`pl.read_csv(..., encoding=...)` for an encoding other than the two
natively supported spellings `utf8` / `utf8-lossy`: polars then decodes the
bytes in Python with that codec first.  The spelling `utf-8-lossy` used by
`app.py` is not a Python codec, so it raises `LookupError` on every
input. -/
def pythonDecode (enc : String) (bytes : Bytes) : Except String (List Char) :=
  if enc == "utf-8" then
    match utf8DecodeList bytes with
    | some cs => .ok cs
    | none => .error "UnicodeDecodeError: invalid utf-8"
  else if enc == "latin-1" then .ok (latin1DecodeList bytes)
  else if enc == "cp1252" then
    match cp1252DecodeList bytes with
    | some cs => .ok cs
    | none => .error "UnicodeDecodeError: unassigned cp1252 byte"
  else .error ("LookupError: unknown encoding: " ++ enc)

/-- One `pl.read_csv(file, separator=sep, encoding=enc, ignore_errors=True)`
attempt: the spellings `utf8` and `utf8-lossy` are handled natively (strict
utf-8 / replacement characters), any other name goes through the Python
codec machinery, then the decoded text is parsed. -/
def polarsReadCsv (sep : Char) (enc : String) (bytes : Bytes) :
    Except String Table :=
  if enc == "utf8" then
    match utf8DecodeList bytes with
    | some cs => parseCsv sep cs
    | none => .error "ComputeError: invalid utf8"
  else if enc == "utf8-lossy" then parseCsv sep (utf8ReplaceList bytes)
  else
    match pythonDecode enc bytes with
    | .ok cs => parseCsv sep cs
    | .error e => .error e

/-- The encoding ladder of `read_file_with_polars`
(`encodings = ['utf-8', 'utf-8-lossy', 'latin-1', 'cp1252']`). -/
def encodingsTried : List String := ["utf-8", "utf-8-lossy", "latin-1", "cp1252"]

/-- First successful attempt, if any (the `return df` on success /
`continue` on exception of the csv loop). -/
def firstOkTable : List (Except String Table) → Option Table
  | [] => none
  | .ok t :: _ => some t
  | .error _ :: rest => firstOkTable rest

/-- The csv branch of `read_file_with_polars` (`app.py` lines 232-247):
four polars attempts over the encoding ladder with comma delimiter; if all
raise, the code falls back to
`pd.read_csv(file, encoding="utf-8", errors="replace")`.  Modelled from the
library behavior: `pandas.read_csv` has no parameter named `errors` (the
relevant keyword is `encoding_errors`), so that call raises `TypeError`
before reading any input; the outer handler wraps the message.  The
`TypeError` text is abbreviated here without quote characters. -/
def read_file_with_polars_csv (bytes : Bytes) : Except String Table :=
  match firstOkTable (encodingsTried.map (fun enc => polarsReadCsv ',' enc bytes)) with
  | some t => .ok t
  | none =>
    .error ("Could not read CSV file: " ++
      "read_csv() got an unexpected keyword argument errors")

/-- First attempt accepted by the TXT loop: a parse that succeeds but
yields at most one column is rejected as evidence of a wrong delimiter
(`if len(df.columns) > 1` in `app.py` lines 276 and 288). -/
def firstQualifying : List (Except String Table) → Option Table
  | [] => none
  | .ok t :: rest => if 1 < t.cols.length then some t else firstQualifying rest
  | .error _ :: rest => firstQualifying rest

/-- The delimiter ladder of the txt branch
(`separators = [',', '\t', ';', '|']`). -/
def txtSeparators : List Char := [',', Char.ofNat 9, ';', '|']

/-- The txt branch of `read_file_with_polars` (`app.py` lines 266-294):
the sixteen delimiter x encoding polars attempts (delimiter outer loop,
encoding inner loop), accepted only with more than one column; then the
decode-with-replacement pandas fallback over each delimiter under the same
acceptance rule; then the terminal separator error, wrapped by the outer
handler. -/
def read_file_with_polars_txt (bytes : Bytes) : Except String Table :=
  match firstQualifying (txtSeparators.flatMap (fun sep =>
      encodingsTried.map (fun enc => polarsReadCsv sep enc bytes))) with
  | some t => .ok t
  | none =>
    let content := utf8ReplaceList bytes
    match firstQualifying (txtSeparators.map (fun sep => parseCsv sep content)) with
    | some t => .ok t
    | none =>
      .error ("Could not read TXT file: " ++
        "Could not determine separator for TXT file")

/-- Anything the qualifying scan returns has more than one column. -/
lemma firstQualifying_some (l : List (Except String Table)) (t : Table)
    (h : firstQualifying l = some t) : 1 < t.cols.length := by
  induction l with
  | nil => exact absurd h (by simp [firstQualifying])
  | cons x rest ih =>
    cases x with
    | ok t0 =>
      rw [show firstQualifying (.ok t0 :: rest)
          = if 1 < t0.cols.length then some t0 else firstQualifying rest from rfl] at h
      split at h
      · rename_i hgt
        cases h
        exact hgt
      · exact ih h
    | error e =>
      rw [show firstQualifying (.error e :: rest) = firstQualifying rest from rfl] at h
      exact ih h

/-- Claim C6: the txt loader accepts an attempt (sixteen polars
delimiter x encoding combinations, then the decode-with-replacement pandas
pass over each delimiter) only when it parses to more than one column, so a
successful load never returns a one-column table; when no attempt at any
stage qualifies it fails with the wrapped could-not-determine-separator
message. -/
theorem txt_loader (bytes : Bytes) :
    (∀ t, read_file_with_polars_txt bytes = .ok t → 1 < t.cols.length)
    ∧ (∀ e, read_file_with_polars_txt bytes = .error e →
        e = "Could not read TXT file: Could not determine separator for TXT file") := by
  constructor
  · intro t ht
    unfold read_file_with_polars_txt at ht
    split at ht
    · rename_i t0 hm
      cases ht
      exact firstQualifying_some _ _ hm
    · simp only [] at ht
      split at ht
      · rename_i t0 hm
        cases ht
        exact firstQualifying_some _ _ hm
      · exact absurd ht (by simp)
  · intro e he
    unfold read_file_with_polars_txt at he
    split at he
    · exact absurd he (by simp)
    · simp only [] at he
      split at he
      · exact absurd he (by simp)
      · simp only [Except.error.injEq] at he
        rw [← he]
        decide

/-- Bytes of the semicolon-delimited text file `a;b` newline `1;2`. -/
def w6Bytes : Bytes := [97, 59, 98, 10, 49, 59, 50, 10]

/-- Witness for claim C6: the semicolon-delimited `.txt` file loads into a
table with two columns, not a single whole-line column. -/
theorem txt_loader_witness :
    1 < (Table.mk ["a", "b"] [[Value.vStr "1", Value.vStr "2"]]).cols.length :=
  (txt_loader w6Bytes).1 (Table.mk ["a", "b"] [[Value.vStr "1", Value.vStr "2"]])
    (by rfl)

/-- Claim C5 evaluated at the failing input (the code bug): on an empty csv
file all four polars encoding attempts raise, the permissive pandas
fallback is reached, and instead of succeeding it raises `TypeError`
(`pandas.read_csv` has no `errors` keyword), so the load fails.  On a
comma-delimited file with a byte invalid in UTF-8 the loader does return a
non-empty table, but through the third (latin-1) encoding attempt, not
through the fallback. -/
theorem csv_fallback_code_bug :
    read_file_with_polars_csv [] =
      .error ("Could not read CSV file: " ++
        "read_csv() got an unexpected keyword argument errors")
    ∧ read_file_with_polars_csv [97, 44, 98, 10, 255, 44, 99] =
      .ok (Table.mk ["a", "b"]
        [[Value.vStr (String.mk [Char.ofNat 255]), Value.vStr "c"]]) := by
  constructor
  · rfl
  · rfl

/-- The string cast `pl.col(c).cast(pl.Utf8)` on one cell: nulls stay null, integers print
in decimal. -/
def castUtf8Val : Value → Value
  | vNull => vNull
  | vStr s => vStr s
  | vInt n => vStr (toString n)

/-- Digit run to a natural number. -/
def digitsToNat (cs : List Char) : Nat :=
  cs.foldl (fun n c => n * 10 + (c.toNat - 48)) 0

/-- Unsigned part of the Python `float()` grammar fragment used here:
decimal digits with an optional single point, at least one digit overall. -/
def parseUnsigned (cs : List Char) : Option Rat :=
  let intPart := cs.takeWhile (fun c => c.isDigit)
  let rest := cs.dropWhile (fun c => c.isDigit)
  match rest with
  | [] => if intPart.isEmpty then none else some ((digitsToNat intPart : Rat))
  | '.' :: frac =>
    if frac.all (fun c => c.isDigit) && !(intPart.isEmpty && frac.isEmpty) then
      some ((digitsToNat intPart : Rat)
        + (digitsToNat frac : Rat) / ((10 : Rat) ^ frac.length))
    else none
  | _ => none

/-- The Python `float(value)` call of the numeric filters (`app.py` lines
689/691), modelled on the fragment of its grammar the claims exercise:
optional sign, digits, optional fractional point.  Exponent notation,
`inf`/`nan` and surrounding whitespace are outside the fragment; no
verified claim involves them.  `none` models a raised `ValueError`. -/
def parseFloat (s : String) : Option Rat :=
  match s.toList with
  | '-' :: rest => (parseUnsigned rest).map (fun q => -q)
  | '+' :: rest => parseUnsigned rest
  | cs => parseUnsigned cs

/-- Characters that are metacharacters of the Rust regex dialect polars
uses for `Expr.str.contains` with its default `literal=False`. -/
def regexMeta : List Char :=
  ['.', '^', '$', '*', '+', '?', '(', ')', '[', ']', '\x7b', '\x7d', '|', '\\']

/-- The fragment of the regex dialect modelled here: literal characters
plus the any-character dot.  Patterns outside the fragment are mapped to a
filter error (a real regex engine would accept some of them with further
metacharacter semantics and reject others at compile time; no verified
claim uses such a pattern). -/
def regexFragOk (pat : String) : Bool :=
  pat.toList.all (fun c => c == '.' || !(regexMeta.contains c))

/-- Match the pattern against a prefix of the text: a dot matches any
single character, anything else matches itself. -/
def regexMatchHere : List Char → List Char → Bool
  | [], _ => true
  | _ :: _, [] => false
  | p :: ps, c :: cs => (p == '.' || p == c) && regexMatchHere ps cs

/-- Unanchored regex search, the semantics of `str.contains`: the pattern
may match starting at any position. -/
def regexSearch (pat : List Char) : List Char → Bool
  | [] => regexMatchHere pat []
  | c :: cs => regexMatchHere pat (c :: cs) || regexSearch pat cs

/-- The test `pl.col(c).cast(pl.Utf8).str.contains(pat)` on one string cell. -/
def strContainsRegex (pat s : String) : Bool := regexSearch pat.toList s.toList

/-- Literal substring test (the semantics the spec claims for the
`contains` operator), for comparison with the implementation. -/
def substringB (needle : List Char) : List Char → Bool
  | [] => needle.isEmpty
  | c :: t => needle.isPrefixOf (c :: t) || substringB needle t

/-- One entry of the ordered filter list of the transformation studio. -/
structure FilterSpec where
  column : String
  operator : String
  value : String
deriving DecidableEq, Repr

/-- The body of the per-filter `try` block (`app.py` lines 678-691): a
raised exception is `.error`.  A missing column raises when the filter
expression is resolved; the numeric operators first parse the value as a
float; `contains` compiles the value as a regex.  For the numeric
comparisons the cell is compared unchanged (polars does not cast here);
on a string or null cell the model keeps no row, where polars would raise
for a string-typed column - no verified claim depends on that case.  An
operator outside the five-element list leaves the table unchanged (the
`if`/`elif` chain falls through). -/
def applyOneFilter (t : Table) (f : FilterSpec) : Except String Table :=
  if !(t.cols.contains f.column) then
    .error ("ColumnNotFoundError: " ++ f.column)
  else
    let i := t.cols.indexOf f.column
    match f.operator with
    | "equals" =>
      .ok ⟨t.cols, t.rows.filter (fun r => castUtf8Val (cell r i) == vStr f.value)⟩
    | "not equals" =>
      .ok ⟨t.cols, t.rows.filter (fun r =>
        match castUtf8Val (cell r i) with
        | vStr s => s != f.value
        | _ => false)⟩
    | "contains" =>
      if regexFragOk f.value then
        .ok ⟨t.cols, t.rows.filter (fun r =>
          match castUtf8Val (cell r i) with
          | vStr s => strContainsRegex f.value s
          | _ => false)⟩
      else .error "regex compile error or pattern outside the modelled fragment"
    | "greater than" =>
      match parseFloat f.value with
      | none => .error ("could not convert string to float: " ++ f.value)
      | some q =>
        .ok ⟨t.cols, t.rows.filter (fun r =>
          match cell r i with
          | vInt n => decide ((n : Rat) > q)
          | _ => false)⟩
    | "less than" =>
      match parseFloat f.value with
      | none => .error ("could not convert string to float: " ++ f.value)
      | some q =>
        .ok ⟨t.cols, t.rows.filter (fun r =>
          match cell r i with
          | vInt n => decide ((n : Rat) < q)
          | _ => false)⟩
    | _ => .ok t

/-- One iteration of the filter loop (`app.py` lines 675-693): entries with
an empty value are skipped, a successful filter replaces the working table,
a raised exception leaves the table as it was and appends the
`st.warning` message. -/
def filterStep (acc : Table × List String) (f : FilterSpec) : Table × List String :=
  if f.value == "" then acc
  else
    match applyOneFilter acc.1 f with
    | .ok t2 => (t2, acc.2)
    | .error e => (acc.1, acc.2 ++ ["Filter error for " ++ f.column ++ ": " ++ e])

/-- The whole filter chain applied in list order, collecting warnings. -/
def applyFilters (t : Table) (fs : List FilterSpec) : Table × List String :=
  fs.foldl filterStep (t, [])

/-- The table component of the chain does not depend on the warnings
accumulated so far. -/
lemma foldl_filterStep_fst (fs : List FilterSpec) (t : Table)
    (ws ws2 : List String) :
    (fs.foldl filterStep (t, ws)).1 = (fs.foldl filterStep (t, ws2)).1 := by
  induction fs generalizing t ws ws2 with
  | nil => rfl
  | cons f rest ih =>
    show (rest.foldl filterStep (filterStep (t, ws) f)).1
        = (rest.foldl filterStep (filterStep (t, ws2) f)).1
    by_cases hv : f.value = ""
    · have e1 : filterStep (t, ws) f = (t, ws) := by simp [filterStep, hv]
      have e2 : filterStep (t, ws2) f = (t, ws2) := by simp [filterStep, hv]
      rw [e1, e2]
      exact ih t ws ws2
    · have hv2 : (f.value == "") = false := by simp [hv]
      cases h : applyOneFilter t f with
      | ok t2 =>
        have e1 : filterStep (t, ws) f = (t2, ws) := by simp [filterStep, hv2, h]
        have e2 : filterStep (t, ws2) f = (t2, ws2) := by simp [filterStep, hv2, h]
        rw [e1, e2]
        exact ih t2 ws ws2
      | error e =>
        have e1 : filterStep (t, ws) f
            = (t, ws ++ ["Filter error for " ++ f.column ++ ": " ++ e]) := by
          simp [filterStep, hv2, h]
        have e2 : filterStep (t, ws2) f
            = (t, ws2 ++ ["Filter error for " ++ f.column ++ ": " ++ e]) := by
          simp [filterStep, hv2, h]
        rw [e1, e2]
        exact ih t _ _

/-- Warnings accumulate by concatenation. -/
lemma foldl_filterStep_snd (fs : List FilterSpec) (t : Table) (ws : List String) :
    (fs.foldl filterStep (t, ws)).2 = ws ++ (fs.foldl filterStep (t, [])).2 := by
  induction fs generalizing t ws with
  | nil => simp
  | cons f rest ih =>
    show (rest.foldl filterStep (filterStep (t, ws) f)).2
        = ws ++ (rest.foldl filterStep (filterStep (t, []) f)).2
    by_cases hv : f.value = ""
    · have e1 : filterStep (t, ws) f = (t, ws) := by simp [filterStep, hv]
      have e2 : filterStep (t, []) f = (t, []) := by simp [filterStep, hv]
      rw [e1, e2]
      exact ih t ws
    · have hv2 : (f.value == "") = false := by simp [hv]
      cases h : applyOneFilter t f with
      | ok t2 =>
        have e1 : filterStep (t, ws) f = (t2, ws) := by simp [filterStep, hv2, h]
        have e2 : filterStep (t, []) f = (t2, []) := by simp [filterStep, hv2, h]
        rw [e1, e2]
        exact ih t2 ws
      | error e =>
        have e1 : filterStep (t, ws) f
            = (t, ws ++ ["Filter error for " ++ f.column ++ ": " ++ e]) := by
          simp [filterStep, hv2, h]
        have e2 : filterStep (t, []) f
            = (t, ["Filter error for " ++ f.column ++ ": " ++ e]) := by
          simp [filterStep, hv2, h]
        rw [e1, e2,
          ih t (ws ++ ["Filter error for " ++ f.column ++ ": " ++ e]),
          ih t ["Filter error for " ++ f.column ++ ": " ++ e]]
        simp

/-- Claim C8: in the filter chain a failing entry (column absent from the
current projection, or a numeric operator whose value does not parse) only
appends one per-filter warning naming its column and leaves the table
untouched by that entry, while every remaining filter still applies; an
entry with an empty value is skipped outright; no entry ever aborts the
chain. -/
theorem filter_chain_isolation (t : Table) (pre post : List FilterSpec)
    (bad skip : FilterSpec)
    (hskip : skip.value = "")
    (hbadv : bad.value ≠ "")
    (hbad : bad.column ∉ ((applyFilters t pre).1).cols
        ∨ (bad.operator ∈ (["greater than", "less than"] : List String)
            ∧ parseFloat bad.value = none
            ∧ bad.column ∈ ((applyFilters t pre).1).cols)) :
    (applyFilters t (pre ++ bad :: post)).1 = (applyFilters t (pre ++ post)).1
    ∧ (∃ e, applyOneFilter (applyFilters t pre).1 bad = .error e
        ∧ (applyFilters t (pre ++ bad :: post)).2
          = (applyFilters t pre).2
            ++ ("Filter error for " ++ bad.column ++ ": " ++ e)
            :: (applyFilters (applyFilters t pre).1 post).2)
    ∧ applyFilters t (pre ++ skip :: post) = applyFilters t (pre ++ post) := by
  have herr : ∃ e, applyOneFilter (applyFilters t pre).1 bad = .error e := by
    rcases hbad with hnc | ⟨hop, hpf, hmem⟩
    · refine ⟨"ColumnNotFoundError: " ++ bad.column, ?_⟩
      have hc : ((applyFilters t pre).1.cols.contains bad.column) = false := by
        simpa using hnc
      unfold applyOneFilter
      rw [hc]
      rfl
    · have hc : ((applyFilters t pre).1.cols.contains bad.column) = true := by
        simpa using hmem
      rcases List.mem_cons.mp hop with h1 | h2
      · refine ⟨"could not convert string to float: " ++ bad.value, ?_⟩
        unfold applyOneFilter
        rw [hc, h1, hpf]
        rfl
      · have h2' : bad.operator = "less than" := by simpa using h2
        refine ⟨"could not convert string to float: " ++ bad.value, ?_⟩
        unfold applyOneFilter
        rw [hc, h2', hpf]
        rfl
  obtain ⟨e, he⟩ := herr
  have hsplit : ∀ (g : FilterSpec) (gs : List FilterSpec),
      applyFilters t (pre ++ g :: gs)
        = gs.foldl filterStep (filterStep (applyFilters t pre) g) := by
    intro g gs
    show (pre ++ g :: gs).foldl filterStep (t, []) = _
    rw [List.foldl_append]
    rfl
  have hpp : applyFilters t (pre ++ post)
      = post.foldl filterStep (applyFilters t pre) := by
    show (pre ++ post).foldl filterStep (t, []) = _
    rw [List.foldl_append]
    rfl
  have hvb : (bad.value == "") = false := by simp [hbadv]
  have hstep : filterStep (applyFilters t pre) bad
      = ((applyFilters t pre).1, (applyFilters t pre).2
          ++ ["Filter error for " ++ bad.column ++ ": " ++ e]) := by
    simp [filterStep, hvb, he]
  refine ⟨?_, ⟨e, he, ?_⟩, ?_⟩
  · rw [hsplit bad post, hpp, hstep]
    exact foldl_filterStep_fst post (applyFilters t pre).1 _ _
  · rw [hsplit bad post, hstep, foldl_filterStep_snd]
    show ((applyFilters t pre).2 ++ _) ++ (post.foldl filterStep _).2 = _
    simp [applyFilters]
  · have hvs : (skip.value == "") = true := by simp [hskip]
    have hstep2 : filterStep (applyFilters t pre) skip = applyFilters t pre := by
      simp [filterStep, hvs]
    rw [hsplit skip post, hstep2, hpp]

/-- Working table of the C8 witness. -/
def w8T : Table := ⟨["a"], [[Value.vStr "x"], [Value.vStr "y"]]⟩

/-- A filter on a column absent from the projection. -/
def w8Bad : FilterSpec := ⟨"b", "equals", "1"⟩

/-- A filter with an empty value (skipped). -/
def w8Skip : FilterSpec := ⟨"a", "equals", ""⟩

/-- A well-formed filter that must still apply after the bad entry. -/
def w8Post : FilterSpec := ⟨"a", "equals", "x"⟩

/-- Witness for claim C8: with a missing-column filter in front, the later
filter still applies and the chain result equals the chain without the bad
entry. -/
theorem filter_chain_isolation_witness :
    (applyFilters w8T ([] ++ w8Bad :: [w8Post])).1
      = (applyFilters w8T ([] ++ [w8Post])).1 :=
  (filter_chain_isolation w8T [] [w8Post] w8Bad w8Skip rfl (by decide)
    (Or.inl (by decide))).1

/-- The `contains` semantics the spec claims (literal substring filter on
the string-coerced column), stated for comparison with the
implementation. -/
def specContainsFilter (t : Table) (c v : String) : Table :=
  ⟨t.cols, t.rows.filter (fun r =>
    match castUtf8Val (cell r (t.cols.indexOf c)) with
    | vStr s => substringB v.toList s.toList
    | _ => false)⟩

/-- Claim C4 counterexample: with filter value `x.z`, the implementation
(regex semantics, dot matches any character) keeps the row whose cell is
`xyz`, while the claimed literal-substring semantics drops it. -/
theorem contains_counterexample :
    applyOneFilter (Table.mk ["c"] [[Value.vStr "xyz"]]) ⟨"c", "contains", "x.z"⟩
      = .ok (Table.mk ["c"] [[Value.vStr "xyz"]])
    ∧ specContainsFilter (Table.mk ["c"] [[Value.vStr "xyz"]]) "c" "x.z"
      = Table.mk ["c"] []
    ∧ Table.mk ["c"] [[Value.vStr "xyz"]] ≠ Table.mk ["c"] ([] : List (List Value)) := by
  refine ⟨by rfl, by rfl, by decide⟩

/-- On a pattern with no regex metacharacters, the prefix match is the
literal prefix test. -/
lemma regexMatchHere_isPrefixOf (pat : List Char)
    (hp : pat.all (fun c => !(regexMeta.contains c)) = true) :
    ∀ s, regexMatchHere pat s = pat.isPrefixOf s := by
  induction pat with
  | nil => intro s; cases s <;> rfl
  | cons p ps ih =>
    intro s
    rw [List.all_cons, Bool.and_eq_true] at hp
    obtain ⟨hp0, hps⟩ := hp
    have hpm : regexMeta.contains p = false := by simpa using hp0
    have hpd : p ≠ '.' := by
      intro hpe
      rw [hpe] at hpm
      exact absurd hpm (by decide)
    have hp1 : (p == '.') = false := by simp [hpd]
    cases s with
    | nil => rfl
    | cons c cs =>
      show ((p == '.' || p == c) && regexMatchHere ps cs) = _
      rw [hp1, Bool.false_or, ih hps cs]
      rfl

/-- On a pattern with no regex metacharacters, the unanchored search is the
literal substring test. -/
lemma regexSearch_substringB (pat : List Char)
    (hp : pat.all (fun c => !(regexMeta.contains c)) = true) :
    ∀ s, regexSearch pat s = substringB pat s := by
  intro s
  induction s with
  | nil =>
    show regexMatchHere pat [] = pat.isEmpty
    cases pat <;> rfl
  | cons c cs ih =>
    show (regexMatchHere pat (c :: cs) || regexSearch pat cs)
        = (pat.isPrefixOf (c :: cs) || substringB pat cs)
    rw [regexMatchHere_isPrefixOf pat hp, ih]

/-- Claim C4 as amended: on a column present in the table, `equals` keeps
exactly the rows whose string-coerced cell equals the value, `not equals`
those whose string-coerced cell is a string different from the value (null
cells are dropped by every operator), and `contains` keeps exactly the rows
whose string-coerced cell matches the value interpreted as a regular
expression - which coincides with the claimed literal-substring test
exactly when the value holds no regex metacharacter. -/
theorem filter_operators_amended (t : Table) (c v : String)
    (hc : c ∈ t.cols) (hfrag : regexFragOk v = true) :
    (∃ tEq, applyOneFilter t ⟨c, "equals", v⟩ = .ok tEq ∧ tEq.cols = t.cols
      ∧ ∀ r, r ∈ tEq.rows ↔ r ∈ t.rows
          ∧ castUtf8Val (cell r (t.cols.indexOf c)) = vStr v)
    ∧ (∃ tNe, applyOneFilter t ⟨c, "not equals", v⟩ = .ok tNe ∧ tNe.cols = t.cols
      ∧ ∀ r, r ∈ tNe.rows ↔ r ∈ t.rows
          ∧ ∃ s, castUtf8Val (cell r (t.cols.indexOf c)) = vStr s ∧ s ≠ v)
    ∧ (∃ tCo, applyOneFilter t ⟨c, "contains", v⟩ = .ok tCo ∧ tCo.cols = t.cols
      ∧ ∀ r, r ∈ tCo.rows ↔ r ∈ t.rows
          ∧ ∃ s, castUtf8Val (cell r (t.cols.indexOf c)) = vStr s
              ∧ strContainsRegex v s = true)
    ∧ ((v.toList.all (fun ch => !(regexMeta.contains ch)) = true) →
        ∀ s, strContainsRegex v s = substringB v.toList s.toList) := by
  have hcc : (t.cols.contains c) = true := by simpa using hc
  refine ⟨⟨⟨t.cols, t.rows.filter (fun r =>
      castUtf8Val (cell r (t.cols.indexOf c)) == vStr v)⟩, ?_, rfl, ?_⟩,
    ⟨⟨t.cols, t.rows.filter (fun r =>
      match castUtf8Val (cell r (t.cols.indexOf c)) with
      | vStr s => s != v
      | _ => false)⟩, ?_, rfl, ?_⟩,
    ⟨⟨t.cols, t.rows.filter (fun r =>
      match castUtf8Val (cell r (t.cols.indexOf c)) with
      | vStr s => strContainsRegex v s
      | _ => false)⟩, ?_, rfl, ?_⟩, ?_⟩
  · unfold applyOneFilter
    rw [hcc]
    rfl
  · intro r
    rw [List.mem_filter]
    simp
  · unfold applyOneFilter
    rw [hcc]
    rfl
  · intro r
    rw [List.mem_filter]
    constructor
    · rintro ⟨hr, hpred⟩
      refine ⟨hr, ?_⟩
      cases hcase : castUtf8Val (cell r (t.cols.indexOf c)) with
      | vStr s =>
        rw [hcase] at hpred
        exact ⟨s, rfl, by simpa using hpred⟩
      | vNull =>
        rw [hcase] at hpred
        exact absurd hpred (by simp)
      | vInt n =>
        rw [hcase] at hpred
        exact absurd hpred (by simp)
    · rintro ⟨hr, s, hs, hsv⟩
      refine ⟨hr, ?_⟩
      rw [hs]
      simpa using hsv
  · unfold applyOneFilter
    rw [hcc, hfrag]
    rfl
  · intro r
    rw [List.mem_filter]
    constructor
    · rintro ⟨hr, hpred⟩
      refine ⟨hr, ?_⟩
      cases hcase : castUtf8Val (cell r (t.cols.indexOf c)) with
      | vStr s =>
        rw [hcase] at hpred
        exact ⟨s, rfl, hpred⟩
      | vNull =>
        rw [hcase] at hpred
        exact absurd hpred (by simp)
      | vInt n =>
        rw [hcase] at hpred
        exact absurd hpred (by simp)
    · rintro ⟨hr, s, hs, hsv⟩
      refine ⟨hr, ?_⟩
      rw [hs]
      exact hsv
  · intro hnometa s
    exact regexSearch_substringB v.toList hnometa s.toList

/-- Witness for the amended claim C4: at a concrete one-column table the
metacharacter-free value `b` filters by plain substring. -/
theorem filter_operators_amended_witness :
    strContainsRegex "b" "ab" = substringB "b".toList "ab".toList :=
  (filter_operators_amended (Table.mk ["c"] [[Value.vStr "ab"]]) "c" "b"
    (by decide) (by decide)).2.2.2 (by decide) "ab"

/-- The single-row, single-column placeholder sheet built from a
one-entry Message frame in `app.py` lines 395/402/409. -/
def msgTable (m : String) : Table := ⟨["Message"], [[Value.vStr m]]⟩

/-- The exporter `create_excel_with_sheets` (`app.py` lines 362-418), modelled as the
list of (sheet name, table written to that sheet): an empty input table is
replaced by the placeholder sheet for its slot.  The `.to_pandas()`
round-trip and the xlsx byte serialization are identity on the tabular
content and are not modelled. -/
def create_excel_with_sheets (merged unmatchedPos unmatchedSup : Table) :
    List (String × Table) :=
  [("Merged Data",
    if merged.rows.isEmpty then msgTable "No merged data available" else merged),
   ("Unmatched from POS",
    if unmatchedPos.rows.isEmpty then msgTable "No unmatched POS records"
    else unmatchedPos),
   ("Unmatched from Supplier",
    if unmatchedSup.rows.isEmpty then msgTable "No unmatched Supplier records"
    else unmatchedSup)]

/-- Claim C9: the spreadsheet export always produces exactly the three
fixed sheets in order; a sheet is never empty; each empty input is replaced
by its placeholder (a single-row, single-column message table) and each
non-empty input is written unchanged. -/
theorem excel_three_sheets (m up us : Table) :
    (create_excel_with_sheets m up us).map Prod.fst
      = ["Merged Data", "Unmatched from POS", "Unmatched from Supplier"]
    ∧ (create_excel_with_sheets m up us).length = 3
    ∧ (∀ p ∈ create_excel_with_sheets m up us, p.2.rows ≠ [])
    ∧ (m.rows = [] → ((create_excel_with_sheets m up us).map Prod.snd)[0]?
        = some (msgTable "No merged data available"))
    ∧ (m.rows ≠ [] → ((create_excel_with_sheets m up us).map Prod.snd)[0]?
        = some m)
    ∧ (up.rows = [] → ((create_excel_with_sheets m up us).map Prod.snd)[1]?
        = some (msgTable "No unmatched POS records"))
    ∧ (up.rows ≠ [] → ((create_excel_with_sheets m up us).map Prod.snd)[1]?
        = some up)
    ∧ (us.rows = [] → ((create_excel_with_sheets m up us).map Prod.snd)[2]?
        = some (msgTable "No unmatched Supplier records"))
    ∧ (us.rows ≠ [] → ((create_excel_with_sheets m up us).map Prod.snd)[2]?
        = some us)
    ∧ (∀ s, (msgTable s).cols.length = 1 ∧ (msgTable s).rows.length = 1) := by
  refine ⟨rfl, rfl, ?_, ?_, ?_, ?_, ?_, ?_, ?_, fun s => ⟨rfl, rfl⟩⟩
  · intro p hp
    simp only [create_excel_with_sheets, List.mem_cons, List.not_mem_nil,
      or_false] at hp
    rcases hp with h | h | h <;> rw [h] <;> dsimp only <;> split
    · simp [msgTable]
    · rename_i hne
      simpa [List.isEmpty_iff] using hne
    · simp [msgTable]
    · rename_i hne
      simpa [List.isEmpty_iff] using hne
    · simp [msgTable]
    · rename_i hne
      simpa [List.isEmpty_iff] using hne
  · intro h
    simp [create_excel_with_sheets, List.isEmpty_iff, h]
  · intro h
    simp [create_excel_with_sheets, List.isEmpty_iff, h]
  · intro h
    simp [create_excel_with_sheets, List.isEmpty_iff, h]
  · intro h
    simp [create_excel_with_sheets, List.isEmpty_iff, h]
  · intro h
    simp [create_excel_with_sheets, List.isEmpty_iff, h]
  · intro h
    simp [create_excel_with_sheets, List.isEmpty_iff, h]

/-- Witness for claim C9: with an empty unmatched Supplier table the third
sheet still exists and carries the placeholder message. -/
theorem excel_three_sheets_witness :
    ((create_excel_with_sheets (Table.mk ["a"] [[Value.vStr "1"]])
        (Table.mk ["a"] [[Value.vStr "2"]]) (Table.mk ["a"] [])).map Prod.snd)[2]?
      = some (msgTable "No unmatched Supplier records") :=
  (excel_three_sheets (Table.mk ["a"] [[Value.vStr "1"]])
    (Table.mk ["a"] [[Value.vStr "2"]])
    (Table.mk ["a"] [])).2.2.2.2.2.2.2.1 rfl
